import Mathlib

/-!
Shallow embedding of the polling/streaming wait primitives of the
nomad-client TypeScript library:

* `NomadAllocationModule.waitForStatus` (src/modules/allocations.ts),
* `NomadTaskModule.waitForState` (src/modules/task.ts),
* `NomadJobModule.waitForDeployment` (src/modules/job.ts),
* `NomadAllocationModule.streamLogs` (src/modules/allocations.ts) and
  `NomadTaskModule.streamLogs` (src/modules/task.ts).

The HTTP transport is treated as an external collaborator: each call to the
probe (the HTTP status fetch or log fetch) is represented by its observed
outcome, either a value or a thrown error.  A run of a loop is therefore a
function of the trace of probe outcomes (together with the elapsed wall-clock
time observed at each loop-condition check, and — for streams — where the
cancel function fired).  A rejected promise is modelled as `Except.error`.
-/

namespace NomadClient

/-- Embeds `export type AllocationStatus = 'pending' | 'running' | 'complete' | 'failed' | 'lost'`
(src/types/nomad.ts). -/
inductive AllocationStatus
  | pending | running | complete | failed | lost
deriving DecidableEq, Repr

/-- Embeds `export type TaskState = 'pending' | 'running' | 'dead'` (src/types/nomad.ts). -/
inductive TaskState
  | pending | running | dead
deriving DecidableEq, Repr

/-- An error thrown by a probe (a failed HTTP request).  The embedding keeps
the distinction the spec talks about: a not-found error (the target entity no
longer exists) versus any other transport error.  The source code never
inspects the error object inside the wait loops, so the loops below treat both
constructors alike wherever the source has a bare `catch`. -/
inductive NomadError
  | notFound
  | other
deriving DecidableEq, Repr

/-- Outcome of one probe invocation: the resolved value or the thrown error. -/
inductive ProbeResult (α : Type)
  | ok (a : α)
  | err (e : NomadError)
deriving DecidableEq, Repr

/-- One cycle of a wait loop: the value of `Date.now() - startTime` observed at
the `while` condition check, and the outcome of the probe should the body run. -/
structure WaitCycle (α : Type) where
  elapsed : Int
  probe : ProbeResult α
deriving DecidableEq, Repr

/-- Observable outcome of one run of a wait helper: the settled value of the
returned promise (`Except.error` = rejection), the number of probe invocations
issued, and the number of 2000 ms sleeps performed. -/
structure WaitRun where
  result : Except NomadError Bool
  probes : Nat
  sleeps : Nat
deriving Repr

/-- Embeds `const terminalStatuses = ['complete', 'failed', 'lost']`
(src/modules/allocations.ts, inside `waitForStatus`). -/
def terminalStatuses : List AllocationStatus :=
  [.complete, .failed, .lost]

/-- Embeds `NomadAllocationModule.waitForStatus` (src/modules/allocations.ts):

```
const startTime = Date.now();
while (Date.now() - startTime < timeoutMs) {
  try {
    const allocation = await this.get(allocId);
    if (allocation.ClientStatus === desiredStatus) return true;
    const terminalStatuses = ['complete', 'failed', 'lost'];
    if (terminalStatuses.includes(allocation.ClientStatus))
      return allocation.ClientStatus === desiredStatus;
    await new Promise(resolve => setTimeout(resolve, 2000));
  } catch (error) {
    if (desiredStatus === 'complete') return true;
    break;
  }
}
return false;
```

The run is driven by the trace of cycles; an exhausted trace corresponds to
the loop condition failing (the timeout path, `return false`). -/
def allocWaitLoop (desiredStatus : AllocationStatus) (timeoutMs : Int) :
    List (WaitCycle AllocationStatus) → WaitRun
  | [] => ⟨.ok false, 0, 0⟩
  | c :: rest =>
    if c.elapsed < timeoutMs then
      match c.probe with
      | .ok st =>
        if st = desiredStatus then ⟨.ok true, 1, 0⟩
        else if st ∈ terminalStatuses then ⟨.ok (decide (st = desiredStatus)), 1, 0⟩
        else
          let r := allocWaitLoop desiredStatus timeoutMs rest
          ⟨r.result, r.probes + 1, r.sleeps + 1⟩
      | .err _ =>
        if desiredStatus = .complete then ⟨.ok true, 1, 0⟩
        else ⟨.ok false, 1, 0⟩
    else ⟨.ok false, 0, 0⟩

/-- Embeds `NomadTaskModule.waitForState` (src/modules/task.ts):

```
const startTime = Date.now();
while (Date.now() - startTime < timeoutMs) {
  try {
    const status = await this.getStatus(allocId, taskName);
    if (status.state === desiredState) return true;
    if (status.state === 'dead') return desiredState === 'dead';
    await new Promise(resolve => setTimeout(resolve, 2000));
  } catch (error) {
    break;
  }
}
return false;
``` -/
def taskWaitLoop (desiredState : TaskState) (timeoutMs : Int) :
    List (WaitCycle TaskState) → WaitRun
  | [] => ⟨.ok false, 0, 0⟩
  | c :: rest =>
    if c.elapsed < timeoutMs then
      match c.probe with
      | .ok st =>
        if st = desiredState then ⟨.ok true, 1, 0⟩
        else if st = .dead then ⟨.ok (decide (desiredState = .dead)), 1, 0⟩
        else
          let r := taskWaitLoop desiredState timeoutMs rest
          ⟨r.result, r.probes + 1, r.sleeps + 1⟩
      | .err _ => ⟨.ok false, 1, 0⟩
    else ⟨.ok false, 0, 0⟩

/-- The per-task-group counters of a job summary that `waitForDeployment`
reads (`tg.Running`, `tg.Queued`, `tg.Starting` of `ITaskGroupSummary`). -/
structure TaskGroupSummary where
  Running : Nat
  Queued : Nat
  Starting : Nat
deriving DecidableEq, Repr

/-- What `NomadJobModule.getStatus` returns, as consumed by
`waitForDeployment`: the job status string (`job.Status || 'unknown'`) and
`Object.values(status.summary.Summary)`. -/
structure JobStatusView where
  status : String
  summary : List TaskGroupSummary
deriving DecidableEq, Repr

/-- In `waitForDeployment`: `const running = Object.values(status.summary.Summary)
.reduce((sum, tg) => sum + tg.Running, 0)`. -/
def runningCount (v : JobStatusView) : Nat :=
  v.summary.foldl (fun sum tg => sum + tg.Running) 0

/-- In `waitForDeployment`: `const desired = Object.values(status.summary.Summary)
.reduce((sum, tg) => sum + tg.Running + tg.Queued + tg.Starting, 0)`. -/
def desiredCount (v : JobStatusView) : Nat :=
  v.summary.foldl (fun sum tg => sum + tg.Running + tg.Queued + tg.Starting) 0

/-- Embeds `NomadJobModule.waitForDeployment` (src/modules/job.ts):

```
const startTime = Date.now();
while (Date.now() - startTime < timeoutMs) {
  const status = await this.getStatus(jobId);       // note: no try/catch
  if (status.status === 'running') {
    const running = Object.values(status.summary.Summary)
      .reduce((sum, tg) => sum + tg.Running, 0);
    const desired = Object.values(status.summary.Summary)
      .reduce((sum, tg) => sum + tg.Running + tg.Queued + tg.Starting, 0);
    if (running === desired && running > 0) return true;
  }
  await new Promise(resolve => setTimeout(resolve, 2000));
}
return false;
```

Because the probe is not wrapped in try/catch, a probe error rejects the
returned promise (`Except.error`). -/
def deployWaitLoop (timeoutMs : Int) :
    List (WaitCycle JobStatusView) → WaitRun
  | [] => ⟨.ok false, 0, 0⟩
  | c :: rest =>
    if c.elapsed < timeoutMs then
      match c.probe with
      | .err e => ⟨.error e, 1, 0⟩
      | .ok v =>
        if v.status = "running" then
          let running : Nat := runningCount v
          let desired : Nat := desiredCount v
          if running = desired ∧ running > 0 then ⟨.ok true, 1, 0⟩
          else
            let r := deployWaitLoop timeoutMs rest
            ⟨r.result, r.probes + 1, r.sleeps + 1⟩
        else
          let r := deployWaitLoop timeoutMs rest
          ⟨r.result, r.probes + 1, r.sleeps + 1⟩
    else ⟨.ok false, 0, 0⟩

/-- Value of one character of the standard base64 alphabet, `none` for any
other character.  Models the character table used by node's
`Buffer.from(s, 'base64')`, which skips characters outside the alphabet
(including the `=` padding). -/
def base64CharVal (c : Char) : Option Nat :=
  if 'A' ≤ c ∧ c ≤ 'Z' then some (c.toNat - 65)
  else if 'a' ≤ c ∧ c ≤ 'z' then some (c.toNat - 97 + 26)
  else if '0' ≤ c ∧ c ≤ '9' then some (c.toNat - 48 + 52)
  else if c = '+' then some 62
  else if c = '/' then some 63
  else none

/-- Regroup a stream of 6-bit base64 values into 8-bit bytes, most significant
bits first; `acc` holds the pending `bits` bits.  Trailing bits that do not
fill a byte are dropped, as `Buffer.from(·, 'base64')` does. -/
def base64Regroup : List Nat → Nat → Nat → List Nat
  | [], _, _ => []
  | v :: vs, acc, bits =>
    let acc' := acc * 64 + v
    let bits' := bits + 6
    if 8 ≤ bits' then
      acc' / 2 ^ (bits' - 8) :: base64Regroup vs (acc' % 2 ^ (bits' - 8)) (bits' - 8)
    else
      base64Regroup vs acc' bits'

/-- Models `Buffer.from(data, 'base64').toString('utf-8')` as used by both
`streamLogs` implementations, for the ASCII payloads the claims speak about
(each decoded byte is mapped directly to the character with that code). -/
def base64Decode (s : String) : String :=
  String.mk ((base64Regroup (s.data.filterMap base64CharVal) 0 0).map Char.ofNat)

/-- The log-read response body consumed by `streamLogs`
(`IAllocationLogResponse`, src/modules/allocations.ts): base64 `Data` and the
server-reported `Offset`.  The `File` field is never read by the loops. -/
structure LogChunk where
  Data : String
  Offset : Int
deriving DecidableEq, Repr

/-- One cycle of a `streamLogs` poll loop.  `cancelDuringProbe` (resp.
`cancelDuringSleep`) records whether the returned cancel function ran while
this cycle's probe (resp. sleep) was awaited — the only points where the
single-threaded loop can observe `running` flip to false. -/
structure StreamCycle where
  probe : ProbeResult LogChunk
  cancelDuringProbe : Bool
  cancelDuringSleep : Bool
deriving DecidableEq, Repr

/-- A callback invocation observed by the consumer of `streamLogs`. -/
inductive StreamEvent
  | data (s : String)
  | error (e : NomadError)
deriving DecidableEq, Repr

/-- Observable outcome of a `streamLogs` run over a (finite horizon of a)
trace: the callback invocations in order, the number of probe invocations
issued, and the final value of the `offset` variable. -/
structure StreamRun where
  events : List StreamEvent
  probes : Nat
  finalOffset : Int
deriving DecidableEq, Repr

/-- Embeds the `NomadAllocationModule.streamLogs` body (src/modules/allocations.ts):

```
let running = true;
let offset = 0;
while (running) {
  try {
    const logResponse = await this.logs(allocId, {..., offset, follow: false});
    if (logResponse.Data) {
      const logData = Buffer.from(logResponse.Data, 'base64').toString('utf-8');
      if (logData && logData.length > 0) onData(logData);
      offset = logResponse.Offset;
    }
    await new Promise(resolve => setTimeout(resolve, 1000));
  } catch (error) {
    if (onError && running) onError(error ...);
    break;
  }
}
```

`hasOnError` says whether an `onError` callback was supplied.  `running`
starts true and is cleared by the cancel points recorded in each cycle. -/
def allocStreamLoop (hasOnError : Bool) (running : Bool) (offset : Int) :
    List StreamCycle → StreamRun
  | [] => ⟨[], 0, offset⟩
  | c :: rest =>
    if running then
      match c.probe with
      | .ok chunk =>
        let running1 := running && !c.cancelDuringProbe
        if chunk.Data ≠ "" then
          let logData := base64Decode chunk.Data
          let ev := if logData ≠ "" then [StreamEvent.data logData] else []
          let running2 := running1 && !c.cancelDuringSleep
          let r := allocStreamLoop hasOnError running2 chunk.Offset rest
          ⟨ev ++ r.events, r.probes + 1, r.finalOffset⟩
        else
          let running2 := running1 && !c.cancelDuringSleep
          let r := allocStreamLoop hasOnError running2 offset rest
          ⟨r.events, r.probes + 1, r.finalOffset⟩
      | .err e =>
        let running1 := running && !c.cancelDuringProbe
        ⟨if hasOnError && running1 then [StreamEvent.error e] else [], 1, offset⟩
    else ⟨[], 0, offset⟩

/-- Entry point of `NomadAllocationModule.streamLogs`:
`let running = true; let offset = 0;` then the loop. -/
def allocStreamRun (hasOnError : Bool) (trace : List StreamCycle) : StreamRun :=
  allocStreamLoop hasOnError true 0 trace

/-- Embeds the `NomadTaskModule.streamLogs` body (src/modules/task.ts); it differs from
the allocations variant only in the chunk handling:

```
if (response.data && response.data.Data) {
  const logData = Buffer.from(response.data.Data, 'base64').toString('utf-8');
  if (logData && logData.length > 0) onData(logData);
  offset = response.data.Offset || offset;
}
```

A resolved response always has a body object, so the guard reduces to the
`Data` field being a non-empty string; `Offset || offset` keeps the old
offset when the reported `Offset` is falsy (zero). -/
def taskStreamLoop (hasOnError : Bool) (running : Bool) (offset : Int) :
    List StreamCycle → StreamRun
  | [] => ⟨[], 0, offset⟩
  | c :: rest =>
    if running then
      match c.probe with
      | .ok chunk =>
        let running1 := running && !c.cancelDuringProbe
        if chunk.Data ≠ "" then
          let logData := base64Decode chunk.Data
          let ev := if logData ≠ "" then [StreamEvent.data logData] else []
          let offset1 := if chunk.Offset = 0 then offset else chunk.Offset
          let running2 := running1 && !c.cancelDuringSleep
          let r := taskStreamLoop hasOnError running2 offset1 rest
          ⟨ev ++ r.events, r.probes + 1, r.finalOffset⟩
        else
          let running2 := running1 && !c.cancelDuringSleep
          let r := taskStreamLoop hasOnError running2 offset rest
          ⟨r.events, r.probes + 1, r.finalOffset⟩
      | .err e =>
        let running1 := running && !c.cancelDuringProbe
        ⟨if hasOnError && running1 then [StreamEvent.error e] else [], 1, offset⟩
    else ⟨[], 0, offset⟩

/-- Entry point of `NomadTaskModule.streamLogs`:
`let running = true; let offset = 0;` then the loop. -/
def taskStreamRun (hasOnError : Bool) (trace : List StreamCycle) : StreamRun :=
  taskStreamLoop hasOnError true 0 trace

/-! ### Predicates describing cycles on which a loop keeps polling -/

/-- Holds when `allocWaitLoop` neither returns nor throws on this cycle: the
loop condition passes and the probe resolves to a status that is neither the
desired one nor terminal. -/
def allocContinuesB (desiredStatus : AllocationStatus) (timeoutMs : Int)
    (c : WaitCycle AllocationStatus) : Bool :=
  decide (c.elapsed < timeoutMs) &&
    match c.probe with
    | .ok s => decide (s ≠ desiredStatus) && decide (s ∉ terminalStatuses)
    | .err _ => false

/-- Holds when `taskWaitLoop` keeps polling on this cycle. -/
def taskContinuesB (desiredState : TaskState) (timeoutMs : Int)
    (c : WaitCycle TaskState) : Bool :=
  decide (c.elapsed < timeoutMs) &&
    match c.probe with
    | .ok s => decide (s ≠ desiredState) && decide (s ≠ TaskState.dead)
    | .err _ => false

/-- Holds when `deployWaitLoop` keeps polling on this cycle. -/
def deployContinuesB (timeoutMs : Int) (c : WaitCycle JobStatusView) : Bool :=
  decide (c.elapsed < timeoutMs) &&
    match c.probe with
    | .ok v =>
      !(decide (v.status = "running") && decide (runningCount v = desiredCount v)
          && decide (runningCount v > 0))
    | .err _ => false

/-- Holds when the probe of this cycle resolves to a status that is neither
the desired one nor terminal — irrespective of the elapsed time. -/
def allocBenignB (desiredStatus : AllocationStatus)
    (c : WaitCycle AllocationStatus) : Bool :=
  match c.probe with
  | .ok s => decide (s ≠ desiredStatus) && decide (s ∉ terminalStatuses)
  | .err _ => false

/-- Holds when the probe of this cycle resolves to a task state that is
neither the desired one nor `dead` — irrespective of the elapsed time. -/
def taskBenignB (desiredState : TaskState) (c : WaitCycle TaskState) : Bool :=
  match c.probe with
  | .ok s => decide (s ≠ desiredState) && decide (s ≠ TaskState.dead)
  | .err _ => false

/-- Holds when the probe of this cycle resolves to a job view whose summaries
report zero running allocations in total. -/
def deployZeroRunningB (c : WaitCycle JobStatusView) : Bool :=
  match c.probe with
  | .ok v => decide (runningCount v = 0)
  | .err _ => false

/-- Holds when the probe of this stream cycle resolves and no cancellation
fires during the cycle. -/
def streamOkB (c : StreamCycle) : Bool :=
  (match c.probe with
    | .ok _ => true
    | .err _ => false) && !c.cancelDuringProbe && !c.cancelDuringSleep

/-! ### Unfolding lemmas for the loops -/

theorem allocWaitLoop_cons_continue {d : AllocationStatus} {t : Int}
    {c : WaitCycle AllocationStatus} {rest : List (WaitCycle AllocationStatus)}
    (h : allocContinuesB d t c = true) :
    allocWaitLoop d t (c :: rest) =
      ⟨(allocWaitLoop d t rest).result, (allocWaitLoop d t rest).probes + 1,
       (allocWaitLoop d t rest).sleeps + 1⟩ := by
  obtain ⟨el, pr⟩ := c
  cases pr with
  | ok s =>
    simp only [allocContinuesB, Bool.and_eq_true, decide_eq_true_eq] at h
    obtain ⟨h1, h2, h3⟩ := h
    simp [allocWaitLoop, h1, h2, h3]
  | err e => simp [allocContinuesB] at h

theorem taskWaitLoop_cons_continue {d : TaskState} {t : Int}
    {c : WaitCycle TaskState} {rest : List (WaitCycle TaskState)}
    (h : taskContinuesB d t c = true) :
    taskWaitLoop d t (c :: rest) =
      ⟨(taskWaitLoop d t rest).result, (taskWaitLoop d t rest).probes + 1,
       (taskWaitLoop d t rest).sleeps + 1⟩ := by
  obtain ⟨el, pr⟩ := c
  cases pr with
  | ok s =>
    simp only [taskContinuesB, Bool.and_eq_true, decide_eq_true_eq] at h
    obtain ⟨h1, h2, h3⟩ := h
    simp [taskWaitLoop, h1, h2, h3]
  | err e => simp [taskContinuesB] at h

theorem deployWaitLoop_cons_continue {t : Int}
    {c : WaitCycle JobStatusView} {rest : List (WaitCycle JobStatusView)}
    (h : deployContinuesB t c = true) :
    deployWaitLoop t (c :: rest) =
      ⟨(deployWaitLoop t rest).result, (deployWaitLoop t rest).probes + 1,
       (deployWaitLoop t rest).sleeps + 1⟩ := by
  obtain ⟨el, pr⟩ := c
  cases pr with
  | ok v =>
    simp only [deployContinuesB, Bool.and_eq_true, Bool.not_eq_true',
      decide_eq_true_eq] at h
    obtain ⟨h1, h2⟩ := h
    by_cases hs : v.status = "running"
    · have hcond : ¬(runningCount v = desiredCount v ∧ runningCount v > 0) := by
        intro hc
        have htrue : (decide (v.status = "running")
            && decide (runningCount v = desiredCount v)
            && decide (runningCount v > 0)) = true := by
          simp only [Bool.and_eq_true, decide_eq_true_eq]
          exact ⟨⟨hs, hc.1⟩, hc.2⟩
        rw [htrue] at h2
        exact Bool.noConfusion h2
      simp [deployWaitLoop, h1, hs, hcond]
    · simp [deployWaitLoop, h1, hs]
  | err e => simp [deployContinuesB] at h

theorem allocWaitLoop_append_continue {d : AllocationStatus} {t : Int}
    (pre rest : List (WaitCycle AllocationStatus))
    (hpre : ∀ c ∈ pre, allocContinuesB d t c = true) :
    allocWaitLoop d t (pre ++ rest) =
      ⟨(allocWaitLoop d t rest).result,
       (allocWaitLoop d t rest).probes + pre.length,
       (allocWaitLoop d t rest).sleeps + pre.length⟩ := by
  induction pre with
  | nil => rfl
  | cons c pr ih =>
    have hc := hpre c (List.mem_cons_self _ _)
    have hr := ih fun c' hc' => hpre c' (List.mem_cons_of_mem _ hc')
    rw [List.cons_append, allocWaitLoop_cons_continue hc, hr]
    simp [Nat.add_assoc]

theorem taskWaitLoop_append_continue {d : TaskState} {t : Int}
    (pre rest : List (WaitCycle TaskState))
    (hpre : ∀ c ∈ pre, taskContinuesB d t c = true) :
    taskWaitLoop d t (pre ++ rest) =
      ⟨(taskWaitLoop d t rest).result,
       (taskWaitLoop d t rest).probes + pre.length,
       (taskWaitLoop d t rest).sleeps + pre.length⟩ := by
  induction pre with
  | nil => rfl
  | cons c pr ih =>
    have hc := hpre c (List.mem_cons_self _ _)
    have hr := ih fun c' hc' => hpre c' (List.mem_cons_of_mem _ hc')
    rw [List.cons_append, taskWaitLoop_cons_continue hc, hr]
    simp [Nat.add_assoc]

theorem deployWaitLoop_append_continue {t : Int}
    (pre rest : List (WaitCycle JobStatusView))
    (hpre : ∀ c ∈ pre, deployContinuesB t c = true) :
    deployWaitLoop t (pre ++ rest) =
      ⟨(deployWaitLoop t rest).result,
       (deployWaitLoop t rest).probes + pre.length,
       (deployWaitLoop t rest).sleeps + pre.length⟩ := by
  induction pre with
  | nil => rfl
  | cons c pr ih =>
    have hc := hpre c (List.mem_cons_self _ _)
    have hr := ih fun c' hc' => hpre c' (List.mem_cons_of_mem _ hc')
    rw [List.cons_append, deployWaitLoop_cons_continue hc, hr]
    simp [Nat.add_assoc]

theorem allocStreamLoop_not_running (h : Bool) (off : Int) (t : List StreamCycle) :
    allocStreamLoop h false off t = ⟨[], 0, off⟩ := by
  cases t <;> simp [allocStreamLoop]

theorem taskStreamLoop_not_running (h : Bool) (off : Int) (t : List StreamCycle) :
    taskStreamLoop h false off t = ⟨[], 0, off⟩ := by
  cases t <;> simp [taskStreamLoop]

theorem allocStreamLoop_append_ok (h : Bool) (off : Int) (pre rest : List StreamCycle)
    (hpre : ∀ c ∈ pre, streamOkB c = true) :
    allocStreamLoop h true off (pre ++ rest) =
      ⟨(allocStreamLoop h true off pre).events
         ++ (allocStreamLoop h true (allocStreamLoop h true off pre).finalOffset rest).events,
       pre.length
         + (allocStreamLoop h true (allocStreamLoop h true off pre).finalOffset rest).probes,
       (allocStreamLoop h true (allocStreamLoop h true off pre).finalOffset rest).finalOffset⟩ := by
  induction pre generalizing off with
  | nil => simp [allocStreamLoop]
  | cons c pr ih =>
    obtain ⟨cp, ccp, ccs⟩ := c
    have hc := hpre _ (List.mem_cons_self _ _)
    cases cp with
    | err e => simp [streamOkB] at hc
    | ok chunk =>
      simp only [streamOkB, Bool.and_eq_true, Bool.not_eq_true'] at hc
      obtain ⟨⟨-, hcp⟩, hcs⟩ := hc
      subst hcp
      subst hcs
      have hr := fun o => ih o fun c' h' => hpre c' (List.mem_cons_of_mem _ h')
      by_cases hd : chunk.Data = ""
      · simp [allocStreamLoop, hd, hr, Nat.add_assoc, Nat.add_comm, Nat.add_left_comm]
      · by_cases hdec : base64Decode chunk.Data = "" <;>
          simp [allocStreamLoop, hd, hdec, hr, Nat.add_assoc, Nat.add_comm,
            Nat.add_left_comm]

theorem taskStreamLoop_append_ok (h : Bool) (off : Int) (pre rest : List StreamCycle)
    (hpre : ∀ c ∈ pre, streamOkB c = true) :
    taskStreamLoop h true off (pre ++ rest) =
      ⟨(taskStreamLoop h true off pre).events
         ++ (taskStreamLoop h true (taskStreamLoop h true off pre).finalOffset rest).events,
       pre.length
         + (taskStreamLoop h true (taskStreamLoop h true off pre).finalOffset rest).probes,
       (taskStreamLoop h true (taskStreamLoop h true off pre).finalOffset rest).finalOffset⟩ := by
  induction pre generalizing off with
  | nil => simp [taskStreamLoop]
  | cons c pr ih =>
    obtain ⟨cp, ccp, ccs⟩ := c
    have hc := hpre _ (List.mem_cons_self _ _)
    cases cp with
    | err e => simp [streamOkB] at hc
    | ok chunk =>
      simp only [streamOkB, Bool.and_eq_true, Bool.not_eq_true'] at hc
      obtain ⟨⟨-, hcp⟩, hcs⟩ := hc
      subst hcp
      subst hcs
      have hr := fun o => ih o fun c' h' => hpre c' (List.mem_cons_of_mem _ h')
      by_cases hd : chunk.Data = ""
      · simp [taskStreamLoop, hd, hr, Nat.add_assoc, Nat.add_comm, Nat.add_left_comm]
      · by_cases hdec : base64Decode chunk.Data = "" <;>
          simp [taskStreamLoop, hd, hdec, hr, Nat.add_assoc, Nat.add_comm,
            Nat.add_left_comm]

theorem allocStreamLoop_cons_ok_probes (h : Bool) (off : Int) (chunk : LogChunk)
    (ccp ccs : Bool) (rest : List StreamCycle) :
    (allocStreamLoop h true off (⟨.ok chunk, ccp, ccs⟩ :: rest)).probes =
      (allocStreamLoop h ((true && !ccp) && !ccs)
        (if chunk.Data = "" then off else chunk.Offset) rest).probes + 1 := by
  by_cases hd : chunk.Data = ""
  · simp [allocStreamLoop, hd]
  · by_cases hdec : base64Decode chunk.Data = "" <;> simp [allocStreamLoop, hd, hdec]

theorem taskStreamLoop_cons_ok_probes (h : Bool) (off : Int) (chunk : LogChunk)
    (ccp ccs : Bool) (rest : List StreamCycle) :
    (taskStreamLoop h true off (⟨.ok chunk, ccp, ccs⟩ :: rest)).probes =
      (taskStreamLoop h ((true && !ccp) && !ccs)
        (if chunk.Data = "" then off
         else if chunk.Offset = 0 then off else chunk.Offset) rest).probes + 1 := by
  by_cases hd : chunk.Data = ""
  · simp [taskStreamLoop, hd]
  · by_cases hdec : base64Decode chunk.Data = "" <;> simp [taskStreamLoop, hd, hdec]

theorem allocStreamLoop_cancel_probes (h : Bool) (pre : List StreamCycle) :
    ∀ (c : StreamCycle) (post : List StreamCycle) (running : Bool) (off : Int),
      (c.cancelDuringProbe || c.cancelDuringSleep) = true →
      (allocStreamLoop h running off (pre ++ c :: post)).probes ≤ pre.length + 1 := by
  induction pre with
  | nil =>
    intro c post running off hcancel
    cases running with
    | false => rw [allocStreamLoop_not_running]; exact Nat.zero_le _
    | true =>
      obtain ⟨cp, ccp, ccs⟩ := c
      simp only [Bool.or_eq_true] at hcancel
      cases cp with
      | err e => simp [allocStreamLoop]
      | ok chunk =>
        have hrun2 : ((true && !ccp) && !ccs) = false := by
          rcases hcancel with hcc | hcc <;> subst hcc <;> simp
        rw [List.nil_append, allocStreamLoop_cons_ok_probes, hrun2,
          allocStreamLoop_not_running]
        simp
  | cons c0 pr ih =>
    intro c post running off hcancel
    cases running with
    | false => rw [allocStreamLoop_not_running]; exact Nat.zero_le _
    | true =>
      obtain ⟨cp, ccp, ccs⟩ := c0
      cases cp with
      | err e =>
        have h1 : (allocStreamLoop h true off
            (⟨.err e, ccp, ccs⟩ :: (pr ++ c :: post))).probes = 1 := by
          simp [allocStreamLoop]
        rw [List.cons_append, h1]
        exact Nat.succ_le_succ (Nat.zero_le _)
      | ok chunk =>
        rw [List.cons_append, allocStreamLoop_cons_ok_probes]
        have hih := ih c post ((true && !ccp) && !ccs)
          (if chunk.Data = "" then off else chunk.Offset) hcancel
        simp only [List.length_cons]
        omega

theorem taskStreamLoop_cancel_probes (h : Bool) (pre : List StreamCycle) :
    ∀ (c : StreamCycle) (post : List StreamCycle) (running : Bool) (off : Int),
      (c.cancelDuringProbe || c.cancelDuringSleep) = true →
      (taskStreamLoop h running off (pre ++ c :: post)).probes ≤ pre.length + 1 := by
  induction pre with
  | nil =>
    intro c post running off hcancel
    cases running with
    | false => rw [taskStreamLoop_not_running]; exact Nat.zero_le _
    | true =>
      obtain ⟨cp, ccp, ccs⟩ := c
      simp only [Bool.or_eq_true] at hcancel
      cases cp with
      | err e => simp [taskStreamLoop]
      | ok chunk =>
        have hrun2 : ((true && !ccp) && !ccs) = false := by
          rcases hcancel with hcc | hcc <;> subst hcc <;> simp
        rw [List.nil_append, taskStreamLoop_cons_ok_probes, hrun2,
          taskStreamLoop_not_running]
        simp
  | cons c0 pr ih =>
    intro c post running off hcancel
    cases running with
    | false => rw [taskStreamLoop_not_running]; exact Nat.zero_le _
    | true =>
      obtain ⟨cp, ccp, ccs⟩ := c0
      cases cp with
      | err e =>
        have h1 : (taskStreamLoop h true off
            (⟨.err e, ccp, ccs⟩ :: (pr ++ c :: post))).probes = 1 := by
          simp [taskStreamLoop]
        rw [List.cons_append, h1]
        exact Nat.succ_le_succ (Nat.zero_le _)
      | ok chunk =>
        rw [List.cons_append, taskStreamLoop_cons_ok_probes]
        have hih := ih c post ((true && !ccp) && !ccs)
          (if chunk.Data = "" then off
           else if chunk.Offset = 0 then off else chunk.Offset) hcancel
        simp only [List.length_cons]
        omega

theorem allocStreamLoop_ok_events_shape (h : Bool) (pre : List StreamCycle)
    (hpre : ∀ c ∈ pre, streamOkB c = true) :
    ∀ (off : Int) (ev : StreamEvent),
      ev ∈ (allocStreamLoop h true off pre).events → ∃ s, ev = .data s := by
  induction pre with
  | nil => intro off ev hev; simp [allocStreamLoop] at hev
  | cons c pr ih =>
    intro off ev hev
    obtain ⟨cp, ccp, ccs⟩ := c
    have hc := hpre _ (List.mem_cons_self _ _)
    cases cp with
    | err e => simp [streamOkB] at hc
    | ok chunk =>
      simp only [streamOkB, Bool.and_eq_true, Bool.not_eq_true'] at hc
      obtain ⟨⟨-, hcp⟩, hcs⟩ := hc
      subst hcp
      subst hcs
      have ih' := ih fun c' h' => hpre c' (List.mem_cons_of_mem _ h')
      by_cases hd : chunk.Data = ""
      · simp only [allocStreamLoop, hd] at hev
        simp at hev
        exact ih' _ _ hev
      · by_cases hdec : base64Decode chunk.Data = ""
        · simp [allocStreamLoop, hd, hdec] at hev
          exact ih' _ _ hev
        · simp [allocStreamLoop, hd, hdec] at hev
          rcases hev with rfl | hev
          · exact ⟨_, rfl⟩
          · exact ih' _ _ hev

theorem taskStreamLoop_ok_events_shape (h : Bool) (pre : List StreamCycle)
    (hpre : ∀ c ∈ pre, streamOkB c = true) :
    ∀ (off : Int) (ev : StreamEvent),
      ev ∈ (taskStreamLoop h true off pre).events → ∃ s, ev = .data s := by
  induction pre with
  | nil => intro off ev hev; simp [taskStreamLoop] at hev
  | cons c pr ih =>
    intro off ev hev
    obtain ⟨cp, ccp, ccs⟩ := c
    have hc := hpre _ (List.mem_cons_self _ _)
    cases cp with
    | err e => simp [streamOkB] at hc
    | ok chunk =>
      simp only [streamOkB, Bool.and_eq_true, Bool.not_eq_true'] at hc
      obtain ⟨⟨-, hcp⟩, hcs⟩ := hc
      subst hcp
      subst hcs
      have ih' := ih fun c' h' => hpre c' (List.mem_cons_of_mem _ h')
      by_cases hd : chunk.Data = ""
      · simp only [taskStreamLoop, hd] at hev
        simp at hev
        exact ih' _ _ hev
      · by_cases hdec : base64Decode chunk.Data = ""
        · simp [taskStreamLoop, hd, hdec] at hev
          exact ih' _ _ hev
        · simp [taskStreamLoop, hd, hdec] at hev
          rcases hev with rfl | hev
          · exact ⟨_, rfl⟩
          · exact ih' _ _ hev

/-! ### Claim C5 -/

/-- C5: in every wait-for-status helper, when the remaining timeout is
positive and a fetched status lies in the helper's terminal-status set but
differs from the desired status, the helper returns `false` immediately after
observing it, with no further probe and no further sleep (the cycles before it
being ordinary continuing cycles). -/
theorem waitForStatus_terminal_mismatch_short_circuits :
    (∀ (d : AllocationStatus) (t : Int)
        (pre rest : List (WaitCycle AllocationStatus)) (el : Int)
        (s : AllocationStatus),
      (∀ c ∈ pre, allocContinuesB d t c = true) →
      el < t → s ∈ terminalStatuses → s ≠ d →
      allocWaitLoop d t (pre ++ ⟨el, .ok s⟩ :: rest) =
        ⟨.ok false, pre.length + 1, pre.length⟩)
  ∧ (∀ (d : TaskState) (t : Int) (pre rest : List (WaitCycle TaskState))
        (el : Int),
      (∀ c ∈ pre, taskContinuesB d t c = true) →
      el < t → d ≠ .dead →
      taskWaitLoop d t (pre ++ ⟨el, .ok .dead⟩ :: rest) =
        ⟨.ok false, pre.length + 1, pre.length⟩) := by
  constructor
  · intro d t pre rest el s hpre hel hterm hne
    rw [allocWaitLoop_append_continue pre _ hpre]
    have hhead : allocWaitLoop d t (⟨el, .ok s⟩ :: rest) = ⟨.ok false, 1, 0⟩ := by
      simp [allocWaitLoop, hel, hne, hterm]
    rw [hhead]
    simp [Nat.add_comm]
  · intro d t pre rest el hpre hel hne
    rw [taskWaitLoop_append_continue pre _ hpre]
    have hne' : TaskState.dead ≠ d := fun hh => hne hh.symm
    have hhead : taskWaitLoop d t (⟨el, .ok .dead⟩ :: rest) = ⟨.ok false, 1, 0⟩ := by
      simp [taskWaitLoop, hel, hne, hne']
    rw [hhead]
    simp [Nat.add_comm]

/-- Witness for C5: the spec's probe sequence `[pending, failed]` with desired
status `running`: the helper returns `false` after the second probe, having
slept once. -/
theorem waitForStatus_terminal_mismatch_short_circuits_witness :
    allocWaitLoop .running 6000
        (([⟨0, .ok .pending⟩] : List (WaitCycle AllocationStatus))
          ++ ⟨2000, .ok .failed⟩ :: []) =
      ⟨.ok false,
       ([⟨0, .ok .pending⟩] : List (WaitCycle AllocationStatus)).length + 1,
       ([⟨0, .ok .pending⟩] : List (WaitCycle AllocationStatus)).length⟩ :=
  waitForStatus_terminal_mismatch_short_circuits.1 .running 6000
    [⟨0, .ok .pending⟩] [] 2000 .failed (by decide) (by decide) (by decide)
    (by decide)

/-! ### Claim C6 -/

/-- C6: in every wait-for-status helper, a cycle whose probe returns exactly
the desired status makes the helper return `true` immediately, with no further
probe and no further sleep; with no earlier cycles this is a success on the
first probe without any sleeping. -/
theorem waitForStatus_immediate_success :
    (∀ (d : AllocationStatus) (t : Int)
        (pre rest : List (WaitCycle AllocationStatus)) (el : Int),
      (∀ c ∈ pre, allocContinuesB d t c = true) →
      el < t →
      allocWaitLoop d t (pre ++ ⟨el, .ok d⟩ :: rest) =
        ⟨.ok true, pre.length + 1, pre.length⟩)
  ∧ (∀ (d : TaskState) (t : Int) (pre rest : List (WaitCycle TaskState))
        (el : Int),
      (∀ c ∈ pre, taskContinuesB d t c = true) →
      el < t →
      taskWaitLoop d t (pre ++ ⟨el, .ok d⟩ :: rest) =
        ⟨.ok true, pre.length + 1, pre.length⟩) := by
  constructor
  · intro d t pre rest el hpre hel
    rw [allocWaitLoop_append_continue pre _ hpre]
    have hhead : allocWaitLoop d t (⟨el, .ok d⟩ :: rest) = ⟨.ok true, 1, 0⟩ := by
      simp [allocWaitLoop, hel]
    rw [hhead]
    simp [Nat.add_comm]
  · intro d t pre rest el hpre hel
    rw [taskWaitLoop_append_continue pre _ hpre]
    have hhead : taskWaitLoop d t (⟨el, .ok d⟩ :: rest) = ⟨.ok true, 1, 0⟩ := by
      simp [taskWaitLoop, hel]
    rw [hhead]
    simp [Nat.add_comm]

/-- Witness for C6: a first probe that already returns the desired status
`running` makes the helper return `true` with one probe and zero sleeps. -/
theorem waitForStatus_immediate_success_witness :
    allocWaitLoop .running 300000
        (([] : List (WaitCycle AllocationStatus))
          ++ ⟨0, .ok .running⟩ :: []) =
      ⟨.ok true, ([] : List (WaitCycle AllocationStatus)).length + 1,
       ([] : List (WaitCycle AllocationStatus)).length⟩ :=
  waitForStatus_immediate_success.1 .running 300000 [] [] 0
    (by decide) (by decide)

/-! ### Claim C7 -/

/-- C7: in every wait-for-status helper, a run whose probes never return the
desired status, never return a differing terminal status, and never fail,
ends with the ordinary value `false` — never with a thrown error. -/
theorem waitForStatus_timeout_returns_false :
    (∀ (d : AllocationStatus) (t : Int)
        (trace : List (WaitCycle AllocationStatus)),
      (∀ c ∈ trace, allocBenignB d c = true) →
      (allocWaitLoop d t trace).result = .ok false)
  ∧ (∀ (d : TaskState) (t : Int) (trace : List (WaitCycle TaskState)),
      (∀ c ∈ trace, taskBenignB d c = true) →
      (taskWaitLoop d t trace).result = .ok false) := by
  constructor
  · intro d t trace htrace
    induction trace with
    | nil => rfl
    | cons c rest ih =>
      have hc := htrace c (List.mem_cons_self _ _)
      have ih' := ih fun c' h' => htrace c' (List.mem_cons_of_mem _ h')
      obtain ⟨el, pr⟩ := c
      cases pr with
      | err e => simp [allocBenignB] at hc
      | ok s =>
        simp only [allocBenignB, Bool.and_eq_true, decide_eq_true_eq] at hc
        obtain ⟨hs1, hs2⟩ := hc
        by_cases hel : el < t
        · simp [allocWaitLoop, hel, hs1, hs2, ih']
        · simp [allocWaitLoop, hel]
  · intro d t trace htrace
    induction trace with
    | nil => rfl
    | cons c rest ih =>
      have hc := htrace c (List.mem_cons_self _ _)
      have ih' := ih fun c' h' => htrace c' (List.mem_cons_of_mem _ h')
      obtain ⟨el, pr⟩ := c
      cases pr with
      | err e => simp [taskBenignB] at hc
      | ok s =>
        simp only [taskBenignB, Bool.and_eq_true, decide_eq_true_eq] at hc
        obtain ⟨hs1, hs2⟩ := hc
        by_cases hel : el < t
        · simp [taskWaitLoop, hel, hs1, hs2, ih']
        · simp [taskWaitLoop, hel]

/-- Witness for C7: probes that keep reporting `pending` until the timeout is
exceeded make the helper settle to `.ok false`. -/
theorem waitForStatus_timeout_returns_false_witness :
    (allocWaitLoop .running 3000
      [⟨0, .ok .pending⟩, ⟨2000, .ok .pending⟩, ⟨4000, .ok .pending⟩]).result =
      .ok false :=
  waitForStatus_timeout_returns_false.1 .running 3000
    [⟨0, .ok .pending⟩, ⟨2000, .ok .pending⟩, ⟨4000, .ok .pending⟩]
    (by decide)

/-! ### Claim C9 -/

/-- C9: when `timeoutMs ≤ 0`, both wait helpers return `false` without
issuing a single probe (and without sleeping), whatever the first probe would
have returned — the guard `Date.now() - startTime < timeoutMs` is evaluated
before the first probe and the elapsed time is non-negative. -/
theorem waitForStatus_nonpositive_timeout_no_probe :
    (∀ (d : AllocationStatus) (t el : Int)
        (pr : ProbeResult AllocationStatus)
        (rest : List (WaitCycle AllocationStatus)),
      t ≤ 0 → 0 ≤ el →
      allocWaitLoop d t (⟨el, pr⟩ :: rest) = ⟨.ok false, 0, 0⟩)
  ∧ (∀ (d : TaskState) (t el : Int) (pr : ProbeResult TaskState)
        (rest : List (WaitCycle TaskState)),
      t ≤ 0 → 0 ≤ el →
      taskWaitLoop d t (⟨el, pr⟩ :: rest) = ⟨.ok false, 0, 0⟩) := by
  constructor
  · intro d t el pr rest ht hel
    have hlt : ¬ el < t := by omega
    simp [allocWaitLoop, hlt]
  · intro d t el pr rest ht hel
    have hlt : ¬ el < t := by omega
    simp [taskWaitLoop, hlt]

/-- Witness for C9: timeout `0` with an entity already at the desired status:
zero probes, result `false`. -/
theorem waitForStatus_nonpositive_timeout_no_probe_witness :
    allocWaitLoop .running 0 [⟨0, .ok .running⟩] = ⟨.ok false, 0, 0⟩ :=
  waitForStatus_nonpositive_timeout_no_probe.1 .running 0 0
    (.ok .running) [] (by decide) (by decide)

/-! ### Claim C1 (corrected) -/

/-- Refutes C1 as stated: with `desiredStatus = 'complete'`, a probe failure
that is NOT a not-found error (a generic transport error) still makes
`waitForStatus` return `true` — the catch block never inspects the error.
The claim asserts that a failure that is not a not-found error never yields
`true`. -/
theorem waitForStatus_generic_failure_complete_cx :
    allocWaitLoop .complete 300000 [⟨0, .err .other⟩] = ⟨.ok true, 1, 0⟩ :=
  rfl

/-- C1 (amended): in `waitForStatus` on allocations, ANY probe failure — not
only a not-found one — is treated as success exactly when `desiredStatus` is
`'complete'`; for every other desired status a probe failure ends the wait
with `false`.  In `waitForState` on tasks every probe failure ends the wait
with `false` (the task state union has no `'complete'`, so no special case
exists there). -/
theorem waitForStatus_probe_failure_success_iff_complete :
    (∀ (d : AllocationStatus) (t : Int)
        (pre rest : List (WaitCycle AllocationStatus)) (el : Int)
        (e : NomadError),
      (∀ c ∈ pre, allocContinuesB d t c = true) →
      el < t →
      allocWaitLoop d t (pre ++ ⟨el, .err e⟩ :: rest) =
        ⟨.ok (decide (d = .complete)), pre.length + 1, pre.length⟩)
  ∧ (∀ (d : TaskState) (t : Int) (pre rest : List (WaitCycle TaskState))
        (el : Int) (e : NomadError),
      (∀ c ∈ pre, taskContinuesB d t c = true) →
      el < t →
      taskWaitLoop d t (pre ++ ⟨el, .err e⟩ :: rest) =
        ⟨.ok false, pre.length + 1, pre.length⟩) := by
  constructor
  · intro d t pre rest el e hpre hel
    rw [allocWaitLoop_append_continue pre _ hpre]
    have hhead : allocWaitLoop d t (⟨el, .err e⟩ :: rest) =
        ⟨.ok (decide (d = .complete)), 1, 0⟩ := by
      by_cases hd : d = .complete <;> simp [allocWaitLoop, hel, hd]
    rw [hhead]
    simp [Nat.add_comm]
  · intro d t pre rest el e hpre hel
    rw [taskWaitLoop_append_continue pre _ hpre]
    have hhead : taskWaitLoop d t (⟨el, .err e⟩ :: rest) = ⟨.ok false, 1, 0⟩ := by
      simp [taskWaitLoop, hel]
    rw [hhead]
    simp [Nat.add_comm]

/-- Witness for C1 (amended): a not-found failure on the first probe with
desired status `'complete'` yields `true`. -/
theorem waitForStatus_probe_failure_success_iff_complete_witness :
    allocWaitLoop .complete 300000
        (([] : List (WaitCycle AllocationStatus)) ++ ⟨0, .err .notFound⟩ :: []) =
      ⟨.ok (decide (AllocationStatus.complete = .complete)),
       ([] : List (WaitCycle AllocationStatus)).length + 1,
       ([] : List (WaitCycle AllocationStatus)).length⟩ :=
  waitForStatus_probe_failure_success_iff_complete.1 .complete 300000 [] [] 0
    .notFound (by decide) (by decide)

/-! ### Claim C3 (corrected) -/

/-- Refutes C3 as stated: `waitForDeployment` wraps its probe in no try/catch,
so a probe failure (here on the very first cycle) rejects the returned
promise instead of yielding the value `false` — the helper does throw. -/
theorem waitForDeployment_probe_failure_throws_cx :
    deployWaitLoop 300000 [⟨0, .err .other⟩] = ⟨.error .other, 1, 0⟩ :=
  rfl

/-- C3 (amended): a probe failure stops every wait-for-condition loop at once,
with no retry of the failed probe; `waitForStatus` (outside its
`desiredStatus = 'complete'` special case) and `waitForState` surface it as
the ordinary value `false`, while `waitForDeployment` propagates it as a
thrown error. -/
theorem wait_helpers_probe_failure_policy :
    (∀ (d : AllocationStatus) (t : Int)
        (pre rest : List (WaitCycle AllocationStatus)) (el : Int)
        (e : NomadError),
      (∀ c ∈ pre, allocContinuesB d t c = true) →
      el < t → d ≠ .complete →
      allocWaitLoop d t (pre ++ ⟨el, .err e⟩ :: rest) =
        ⟨.ok false, pre.length + 1, pre.length⟩)
  ∧ (∀ (d : TaskState) (t : Int) (pre rest : List (WaitCycle TaskState))
        (el : Int) (e : NomadError),
      (∀ c ∈ pre, taskContinuesB d t c = true) →
      el < t →
      taskWaitLoop d t (pre ++ ⟨el, .err e⟩ :: rest) =
        ⟨.ok false, pre.length + 1, pre.length⟩)
  ∧ (∀ (t : Int) (pre rest : List (WaitCycle JobStatusView)) (el : Int)
        (e : NomadError),
      (∀ c ∈ pre, deployContinuesB t c = true) →
      el < t →
      deployWaitLoop t (pre ++ ⟨el, .err e⟩ :: rest) =
        ⟨.error e, pre.length + 1, pre.length⟩) := by
  refine ⟨?_, ?_, ?_⟩
  · intro d t pre rest el e hpre hel hd
    rw [allocWaitLoop_append_continue pre _ hpre]
    have hhead : allocWaitLoop d t (⟨el, .err e⟩ :: rest) = ⟨.ok false, 1, 0⟩ := by
      simp [allocWaitLoop, hel, hd]
    rw [hhead]
    simp [Nat.add_comm]
  · intro d t pre rest el e hpre hel
    rw [taskWaitLoop_append_continue pre _ hpre]
    have hhead : taskWaitLoop d t (⟨el, .err e⟩ :: rest) = ⟨.ok false, 1, 0⟩ := by
      simp [taskWaitLoop, hel]
    rw [hhead]
    simp [Nat.add_comm]
  · intro t pre rest el e hpre hel
    rw [deployWaitLoop_append_continue pre _ hpre]
    have hhead : deployWaitLoop t (⟨el, .err e⟩ :: rest) = ⟨.error e, 1, 0⟩ := by
      simp [deployWaitLoop, hel]
    rw [hhead]
    simp [Nat.add_comm]

/-- Witness for C3 (amended): a failure on the second probe of an allocation
wait for `running` ends the wait with `false` after two probes and one sleep. -/
theorem wait_helpers_probe_failure_policy_witness :
    allocWaitLoop .running 300000
        (([⟨0, .ok .pending⟩] : List (WaitCycle AllocationStatus))
          ++ ⟨2000, .err .other⟩ :: []) =
      ⟨.ok false,
       ([⟨0, .ok .pending⟩] : List (WaitCycle AllocationStatus)).length + 1,
       ([⟨0, .ok .pending⟩] : List (WaitCycle AllocationStatus)).length⟩ :=
  wait_helpers_probe_failure_policy.1 .running 300000 [⟨0, .ok .pending⟩] []
    2000 .other (by decide) (by decide) (by decide)

/-! ### Claim C10 -/

/-- C10: `waitForDeployment` settles to `true` only when some poll cycle
observes job status `"running"` together with a total `Running` count that is
strictly positive and equal to the total `Running + Queued + Starting` count;
consequently, when every summary reports zero running allocations, the helper
never settles to `true` and (absent probe failures) falls through to the
timeout result `false`. -/
theorem waitForDeployment_success_characterization :
    (∀ (t : Int) (trace : List (WaitCycle JobStatusView)),
      (deployWaitLoop t trace).result = .ok true →
      ∃ c ∈ trace, ∃ v, c.probe = .ok v ∧ v.status = "running"
        ∧ runningCount v = desiredCount v ∧ 0 < runningCount v)
  ∧ (∀ (t : Int) (trace : List (WaitCycle JobStatusView)),
      (∀ c ∈ trace, deployZeroRunningB c = true) →
      (deployWaitLoop t trace).result = .ok false) := by
  constructor
  · intro t trace
    induction trace with
    | nil => intro hres; exact absurd hres (by simp [deployWaitLoop])
    | cons c rest ih =>
      intro hres
      obtain ⟨el, pr⟩ := c
      by_cases hel : el < t
      · cases pr with
        | err e =>
          rw [show deployWaitLoop t (⟨el, .err e⟩ :: rest) = ⟨.error e, 1, 0⟩ by
            simp [deployWaitLoop, hel]] at hres
          exact absurd hres (by simp)
        | ok v =>
          by_cases hs : v.status = "running"
          · by_cases hcond : runningCount v = desiredCount v ∧ runningCount v > 0
            · exact ⟨⟨el, .ok v⟩, List.mem_cons_self _ _, v, rfl, hs, hcond.1,
                hcond.2⟩
            · rw [show deployWaitLoop t (⟨el, .ok v⟩ :: rest) =
                  ⟨(deployWaitLoop t rest).result,
                   (deployWaitLoop t rest).probes + 1,
                   (deployWaitLoop t rest).sleeps + 1⟩ by
                simp [deployWaitLoop, hel, hs, hcond]] at hres
              obtain ⟨c', hc', hv⟩ := ih hres
              exact ⟨c', List.mem_cons_of_mem _ hc', hv⟩
          · rw [show deployWaitLoop t (⟨el, .ok v⟩ :: rest) =
                ⟨(deployWaitLoop t rest).result,
                 (deployWaitLoop t rest).probes + 1,
                 (deployWaitLoop t rest).sleeps + 1⟩ by
              simp [deployWaitLoop, hel, hs]] at hres
            obtain ⟨c', hc', hv⟩ := ih hres
            exact ⟨c', List.mem_cons_of_mem _ hc', hv⟩
      · rw [show deployWaitLoop t (⟨el, pr⟩ :: rest) = ⟨.ok false, 0, 0⟩ by
          simp [deployWaitLoop, hel]] at hres
        exact absurd hres (by simp)
  · intro t trace htrace
    induction trace with
    | nil => rfl
    | cons c rest ih =>
      have hc := htrace c (List.mem_cons_self _ _)
      have ih' := ih fun c' h' => htrace c' (List.mem_cons_of_mem _ h')
      obtain ⟨el, pr⟩ := c
      cases pr with
      | err e => simp [deployZeroRunningB] at hc
      | ok v =>
        simp only [deployZeroRunningB, decide_eq_true_eq] at hc
        by_cases hel : el < t
        · have hcond : ¬(runningCount v = desiredCount v ∧ runningCount v > 0) := by
            intro hcc
            have h2 := hcc.2
            omega
          by_cases hs : v.status = "running"
          · simp [deployWaitLoop, hel, hs, hcond, ih']
          · simp [deployWaitLoop, hel, hs, ih']
        · simp [deployWaitLoop, hel]

/-- Witness for C10: a trace whose summaries always report zero running
allocations settles to `.ok false`. -/
theorem waitForDeployment_success_characterization_witness :
    (deployWaitLoop 300000
      [⟨0, .ok ⟨"running", [⟨0, 2, 1⟩]⟩⟩, ⟨2000, .ok ⟨"pending", [⟨0, 0, 0⟩]⟩⟩]).result =
      .ok false :=
  waitForDeployment_success_characterization.2 300000
    [⟨0, .ok ⟨"running", [⟨0, 2, 1⟩]⟩⟩, ⟨2000, .ok ⟨"pending", [⟨0, 0, 0⟩]⟩⟩]
    (by decide)

/-! ### Claim C2 (corrected) -/

/-- Refutes C2 as stated: a chunk `{Data: "", Offset: 7}` does NOT advance the
stored offset to the server-reported `7` — the guard `if (logResponse.Data)`
is falsy on the empty string, so the whole block (including the offset
assignment) is skipped, in both `streamLogs` implementations. -/
theorem streamLogs_empty_chunk_offset_cx :
    (allocStreamRun true [⟨.ok ⟨"", 7⟩, false, false⟩]).finalOffset ≠ 7
      ∧ (taskStreamRun true [⟨.ok ⟨"", 7⟩, false, false⟩]).finalOffset ≠ 7 := by
  decide

/-- C2 (amended): in every poll cycle of `streamLogs`, a chunk with empty
`Data` invokes `onData` zero times and leaves the stored offset unchanged
(the offset is NOT advanced to the server-reported one); a chunk whose `Data`
decodes to non-empty text invokes `onData` exactly once with that text and
advances the offset to the server-reported `Offset` (the task variant keeps
the old offset when the reported `Offset` is `0`).  For the probe sequence
`{Data: "", Offset: 7}` then `{Data: base64("hello"), Offset: 12}`, `onData`
is invoked exactly once, with `"hello"`. -/
theorem streamLogs_chunk_behavior :
    (∀ (h : Bool) (off : Int) (chunk : LogChunk) (rest : List StreamCycle),
      chunk.Data = "" →
      allocStreamLoop h true off (⟨.ok chunk, false, false⟩ :: rest) =
        ⟨(allocStreamLoop h true off rest).events,
         (allocStreamLoop h true off rest).probes + 1,
         (allocStreamLoop h true off rest).finalOffset⟩)
  ∧ (∀ (h : Bool) (off : Int) (chunk : LogChunk) (rest : List StreamCycle),
      chunk.Data ≠ "" → base64Decode chunk.Data ≠ "" →
      allocStreamLoop h true off (⟨.ok chunk, false, false⟩ :: rest) =
        ⟨.data (base64Decode chunk.Data)
           :: (allocStreamLoop h true chunk.Offset rest).events,
         (allocStreamLoop h true chunk.Offset rest).probes + 1,
         (allocStreamLoop h true chunk.Offset rest).finalOffset⟩)
  ∧ (∀ (h : Bool) (off : Int) (chunk : LogChunk) (rest : List StreamCycle),
      chunk.Data = "" →
      taskStreamLoop h true off (⟨.ok chunk, false, false⟩ :: rest) =
        ⟨(taskStreamLoop h true off rest).events,
         (taskStreamLoop h true off rest).probes + 1,
         (taskStreamLoop h true off rest).finalOffset⟩)
  ∧ (∀ (h : Bool) (off : Int) (chunk : LogChunk) (rest : List StreamCycle),
      chunk.Data ≠ "" → base64Decode chunk.Data ≠ "" → chunk.Offset ≠ 0 →
      taskStreamLoop h true off (⟨.ok chunk, false, false⟩ :: rest) =
        ⟨.data (base64Decode chunk.Data)
           :: (taskStreamLoop h true chunk.Offset rest).events,
         (taskStreamLoop h true chunk.Offset rest).probes + 1,
         (taskStreamLoop h true chunk.Offset rest).finalOffset⟩)
  ∧ allocStreamRun true
        [⟨.ok ⟨"", 7⟩, false, false⟩, ⟨.ok ⟨"aGVsbG8=", 12⟩, false, false⟩] =
      ⟨[.data "hello"], 2, 12⟩
  ∧ taskStreamRun true
        [⟨.ok ⟨"", 7⟩, false, false⟩, ⟨.ok ⟨"aGVsbG8=", 12⟩, false, false⟩] =
      ⟨[.data "hello"], 2, 12⟩ := by
  refine ⟨?_, ?_, ?_, ?_, by decide, by decide⟩
  · intro h off chunk rest hd
    simp [allocStreamLoop, hd]
  · intro h off chunk rest hd hdec
    simp [allocStreamLoop, hd, hdec]
  · intro h off chunk rest hd
    simp [taskStreamLoop, hd]
  · intro h off chunk rest hd hdec hoff
    simp [taskStreamLoop, hd, hdec, hoff]

/-- Witness for C2 (amended): a first chunk `{Data: "", Offset: 7}` with an
empty remaining trace: no event and the offset stays `0`. -/
theorem streamLogs_chunk_behavior_witness :
    allocStreamLoop true true 0 (⟨.ok ⟨"", 7⟩, false, false⟩ :: []) =
      ⟨(allocStreamLoop true true 0 []).events,
       (allocStreamLoop true true 0 []).probes + 1,
       (allocStreamLoop true true 0 []).finalOffset⟩ :=
  streamLogs_chunk_behavior.1 true 0 ⟨"", 7⟩ [] rfl

/-! ### Claim C4 (corrected) -/

/-- Refutes C4 as stated: the cancel function fires while the first probe is
in flight, yet the probe's chunk is still processed after it resolves —
`onData` IS invoked with `"hello"`.  The claim asserts the in-flight result
is discarded and `onData` is not invoked with it. -/
theorem streamLogs_cancel_inflight_cx :
    (allocStreamRun true [⟨.ok ⟨"aGVsbG8=", 5⟩, true, false⟩]).events =
        [.data "hello"]
      ∧ (taskStreamRun true [⟨.ok ⟨"aGVsbG8=", 5⟩, true, false⟩]).events =
        [.data "hello"] := by
  decide

/-- C4 (amended): after the cancel function returns, no new probe invocation
is started — at most the one already-in-flight probe completes, so the total
probe count is bounded by the cancelled cycle's index plus one.  However, the
result of an in-flight probe that completes after cancellation is NOT
discarded: its non-empty decoded data is still delivered to `onData`; only an
error outcome is dropped (`onError` is suppressed once cancelled). -/
theorem streamLogs_cancellation_behavior :
    (∀ (h : Bool) (pre : List StreamCycle) (c : StreamCycle)
        (post : List StreamCycle),
      (c.cancelDuringProbe || c.cancelDuringSleep) = true →
      (allocStreamRun h (pre ++ c :: post)).probes ≤ pre.length + 1)
  ∧ (∀ (h : Bool) (chunk : LogChunk) (ccs : Bool) (rest : List StreamCycle),
      chunk.Data ≠ "" → base64Decode chunk.Data ≠ "" →
      allocStreamRun h (⟨.ok chunk, true, ccs⟩ :: rest) =
        ⟨[.data (base64Decode chunk.Data)], 1, chunk.Offset⟩)
  ∧ (∀ (h : Bool) (e : NomadError) (ccs : Bool) (rest : List StreamCycle),
      allocStreamRun h (⟨.err e, true, ccs⟩ :: rest) = ⟨[], 1, 0⟩)
  ∧ (∀ (h : Bool) (pre : List StreamCycle) (c : StreamCycle)
        (post : List StreamCycle),
      (c.cancelDuringProbe || c.cancelDuringSleep) = true →
      (taskStreamRun h (pre ++ c :: post)).probes ≤ pre.length + 1)
  ∧ (∀ (h : Bool) (chunk : LogChunk) (ccs : Bool) (rest : List StreamCycle),
      chunk.Data ≠ "" → base64Decode chunk.Data ≠ "" → chunk.Offset ≠ 0 →
      taskStreamRun h (⟨.ok chunk, true, ccs⟩ :: rest) =
        ⟨[.data (base64Decode chunk.Data)], 1, chunk.Offset⟩)
  ∧ (∀ (h : Bool) (e : NomadError) (ccs : Bool) (rest : List StreamCycle),
      taskStreamRun h (⟨.err e, true, ccs⟩ :: rest) = ⟨[], 1, 0⟩) := by
  refine ⟨?_, ?_, ?_, ?_, ?_, ?_⟩
  · intro h pre c post hcancel
    exact allocStreamLoop_cancel_probes h pre c post true 0 hcancel
  · intro h chunk ccs rest hd hdec
    simp [allocStreamRun, allocStreamLoop, hd, hdec, allocStreamLoop_not_running]
  · intro h e ccs rest
    simp [allocStreamRun, allocStreamLoop]
  · intro h pre c post hcancel
    exact taskStreamLoop_cancel_probes h pre c post true 0 hcancel
  · intro h chunk ccs rest hd hdec hoff
    simp [taskStreamRun, taskStreamLoop, hd, hdec, hoff, taskStreamLoop_not_running]
  · intro h e ccs rest
    simp [taskStreamRun, taskStreamLoop]

/-- Witness for C4 (amended): with cancellation firing during the second
cycle's sleep, at most two probes are ever issued, however long the trace. -/
theorem streamLogs_cancellation_behavior_witness :
    (allocStreamRun true
        (([⟨.ok ⟨"aGVsbG8=", 5⟩, false, false⟩] : List StreamCycle)
          ++ ⟨.ok ⟨"", 5⟩, false, true⟩
            :: [⟨.ok ⟨"aGVsbG8=", 10⟩, false, false⟩])).probes ≤
      ([⟨.ok ⟨"aGVsbG8=", 5⟩, false, false⟩] : List StreamCycle).length + 1 :=
  streamLogs_cancellation_behavior.1 true
    [⟨.ok ⟨"aGVsbG8=", 5⟩, false, false⟩] ⟨.ok ⟨"", 5⟩, false, true⟩
    [⟨.ok ⟨"aGVsbG8=", 10⟩, false, false⟩] (by decide)

/-! ### Claim C8 -/

/-- C8: in an uncancelled `streamLogs` run whose earlier cycles all resolve,
a failing read invokes the supplied `onError` exactly once — every earlier
event is a data event and the error event is the final one — and nothing
after it runs: no probe of the remaining trace is issued (probe count stops
at the failing cycle) and `onData` is never invoked again. -/
theorem streamLogs_error_stops_polling :
    (∀ (pre post : List StreamCycle) (e : NomadError),
      (∀ c ∈ pre, streamOkB c = true) →
      allocStreamRun true (pre ++ ⟨.err e, false, false⟩ :: post) =
        ⟨(allocStreamRun true pre).events ++ [.error e], pre.length + 1,
         (allocStreamRun true pre).finalOffset⟩
      ∧ ∀ ev ∈ (allocStreamRun true pre).events, ∃ s, ev = .data s)
  ∧ (∀ (pre post : List StreamCycle) (e : NomadError),
      (∀ c ∈ pre, streamOkB c = true) →
      taskStreamRun true (pre ++ ⟨.err e, false, false⟩ :: post) =
        ⟨(taskStreamRun true pre).events ++ [.error e], pre.length + 1,
         (taskStreamRun true pre).finalOffset⟩
      ∧ ∀ ev ∈ (taskStreamRun true pre).events, ∃ s, ev = .data s) := by
  constructor
  · intro pre post e hpre
    refine ⟨?_, fun ev hev => allocStreamLoop_ok_events_shape true pre hpre 0 ev hev⟩
    show allocStreamLoop true true 0 (pre ++ ⟨.err e, false, false⟩ :: post) = _
    rw [allocStreamLoop_append_ok true 0 pre _ hpre]
    have hhead : allocStreamLoop true true
        (allocStreamLoop true true 0 pre).finalOffset
        (⟨.err e, false, false⟩ :: post) =
        ⟨[.error e], 1, (allocStreamLoop true true 0 pre).finalOffset⟩ := by
      simp [allocStreamLoop]
    rw [hhead]
    simp [allocStreamRun]
  · intro pre post e hpre
    refine ⟨?_, fun ev hev => taskStreamLoop_ok_events_shape true pre hpre 0 ev hev⟩
    show taskStreamLoop true true 0 (pre ++ ⟨.err e, false, false⟩ :: post) = _
    rw [taskStreamLoop_append_ok true 0 pre _ hpre]
    have hhead : taskStreamLoop true true
        (taskStreamLoop true true 0 pre).finalOffset
        (⟨.err e, false, false⟩ :: post) =
        ⟨[.error e], 1, (taskStreamLoop true true 0 pre).finalOffset⟩ := by
      simp [taskStreamLoop]
    rw [hhead]
    simp [taskStreamRun]

/-- Witness for C8: one successful chunk, then a failing read, then a further
(never-executed) cycle: one data event, one trailing error event, two probes. -/
theorem streamLogs_error_stops_polling_witness :
    allocStreamRun true
        (([⟨.ok ⟨"aGVsbG8=", 5⟩, false, false⟩] : List StreamCycle)
          ++ ⟨.err .other, false, false⟩
            :: [⟨.ok ⟨"aGVsbG8=", 10⟩, false, false⟩]) =
      ⟨(allocStreamRun true
          ([⟨.ok ⟨"aGVsbG8=", 5⟩, false, false⟩] : List StreamCycle)).events
          ++ [.error .other],
       ([⟨.ok ⟨"aGVsbG8=", 5⟩, false, false⟩] : List StreamCycle).length + 1,
       (allocStreamRun true
          ([⟨.ok ⟨"aGVsbG8=", 5⟩, false, false⟩] : List StreamCycle)).finalOffset⟩ :=
  (streamLogs_error_stops_polling.1
    [⟨.ok ⟨"aGVsbG8=", 5⟩, false, false⟩]
    [⟨.ok ⟨"aGVsbG8=", 10⟩, false, false⟩] .other (by decide)).1

end NomadClient
